import Mathlib

/-!
Verification of the `akari://` protocol router in
`src/main/shards/akari-protocol/index.ts` (class `AkariProtocolMain`).

JavaScript strings are modelled as `List Char`; the JS string operations the
router uses (`slice` with negative-index semantics, `indexOf`, `trim`) are
embedded faithfully below.  The domain registry (`Map<string, handler>`) is
modelled as an association list with unique keys; `Map.set` on an absent key
appends, `Map.delete` removes the matching entry.
-/

namespace AkariProtocol

/-! ## JavaScript string primitives -/

/-- Code points treated as whitespace by `String.prototype.trim`
(ECMAScript WhiteSpace ∪ LineTerminator). -/
def jsWsCodes : List Nat :=
  [0x9, 0xA, 0xB, 0xC, 0xD, 0x20, 0xA0, 0x1680,
   0x2000, 0x2001, 0x2002, 0x2003, 0x2004, 0x2005, 0x2006, 0x2007,
   0x2008, 0x2009, 0x200A, 0x2028, 0x2029, 0x202F, 0x205F, 0x3000, 0xFEFF]

def isJsWs (c : Char) : Bool := jsWsCodes.contains c.toNat

/-- `String.prototype.trim`: remove leading and trailing whitespace. -/
def jsTrim (s : List Char) : List Char :=
  ((s.dropWhile isJsWs).reverse.dropWhile isJsWs).reverse

/-- Resolve a (possibly negative) JS slice index against a string length:
negative indices count from the end, and the result is clamped to `[0, len]`. -/
def jsIndex (len : Nat) (i : Int) : Nat :=
  if i < 0 then len - min len (-i).toNat else min i.toNat len

/-- `String.prototype.slice(start, stop)`. -/
def jsSlice (s : List Char) (start stop : Int) : List Char :=
  (s.take (jsIndex s.length stop)).drop (jsIndex s.length start)

/-- One-argument `String.prototype.slice(start)` (up to the end). -/
def jsSliceFrom (s : List Char) (start : Int) : List Char :=
  jsSlice s start (s.length : Int)

/-- `String.prototype.indexOf` for a single character: first index, or `-1`. -/
def jsIndexOf : List Char → Char → Int
  | [], _ => -1
  | c :: rest, t =>
    if c == t then 0
    else if jsIndexOf rest t < 0 then -1 else jsIndexOf rest t + 1

/-! ## Domain registry (`Map<string, handler>` as an association list) -/

/-- `Map.has`: is a key present (SameValueZero, i.e. exact equality)? -/
def regHas {K H : Type} [DecidableEq K] (r : List (K × H)) (d : K) : Bool :=
  r.any (fun p => decide (p.1 = d))

/-- `Map.get`: the handler stored for a key, if any. -/
def regGet {K H : Type} [DecidableEq K] (r : List (K × H)) (d : K) : Option H :=
  (r.find? (fun p => decide (p.1 = d))).map Prod.snd

/-- `AkariProtocolMain.registerDomain`: throws on a duplicate domain,
otherwise stores the handler (`Map.set` on an absent key appends). -/
def registerDomain {H : Type} (r : List (String × H)) (domain : String) (handler : H) :
    Except String (List (String × H)) :=
  if regHas r domain then
    Except.error ("Domain " ++ domain ++ " is already registered")
  else
    Except.ok (r ++ [(domain, handler)])

/-- `AkariProtocolMain.unregisterDomain`: throws on an unknown domain,
otherwise removes the entry (`Map.delete`). -/
def unregisterDomain {H : Type} (r : List (String × H)) (domain : String) :
    Except String (List (String × H)) :=
  if !regHas r domain then
    Except.error ("Domain " ++ domain ++ " is not registered")
  else
    Except.ok (r.eraseP (fun p => decide (p.1 = domain)))

/-! ## Request / response model and the scheme interceptor -/

/-- Response body: either buffered text or a lazy stream over a file path
(`fs.createReadStream(filePath)`). -/
inductive Body where
  | text (s : String)
  | fileStream (path : String)
deriving DecidableEq

/-- A web `Response`: status code, status text, headers, body.  The JS
`Response` constructor defaults to status `200` and status text `""`. -/
structure Resp where
  status : Nat
  statusText : String
  headers : List (String × String)
  body : Body
deriving DecidableEq

/-- The part of a web `Request` the interceptor reads. -/
structure Req where
  url : List Char
  method : String

def AKARI_PROXY_PROTOCOL : String := "akari"

/-- The string `` `${AkariProtocolMain.AKARI_PROXY_PROTOCOL}://` ``. -/
def schemeHead : String := AKARI_PROXY_PROTOCOL ++ "://"

/-- Lines 57–60 of the interceptor callback: strip the scheme head, split at
the first `/`, trim both parts.  Returns `(domain, uri)`. -/
def parseAkari (url : List Char) : List Char × List Char :=
  let path1 := jsSliceFrom url (schemeHead.length : Int)
  let index := jsIndexOf path1 '/'
  (jsTrim (jsSlice path1 0 index), jsTrim (jsSliceFrom path1 (index + 1)))

/-- The per-request callback installed by `_handlePartitionAkariProtocol`:
parse the URL, look the domain up, dispatch or return the 404 fallback. -/
def handleAkariProtocol (reg : List (List Char × (List Char → Req → Resp)))
    (req : Req) : Resp :=
  let parsed := parseAkari req.url
  match regGet reg parsed.1 with
  | some handler => handler parsed.2 req
  | none =>
    { status := 404
      statusText := "Not Found"
      headers := [("Content-Type", "text/plain")]
      body := Body.text ("No handler for " ++ String.mk req.url) }

/-! ## Lemmas about the JS string primitives -/

theorem jsIndex_cast (len n : Nat) : jsIndex len (n : Int) = min n len := by
  unfold jsIndex
  rw [if_neg (by omega)]
  simp

theorem jsIndex_zero (len : Nat) : jsIndex len 0 = 0 := by
  have h := jsIndex_cast len 0
  simpa using h

theorem jsIndex_self (len : Nat) : jsIndex len (len : Int) = len := by
  rw [jsIndex_cast, Nat.min_self]

theorem jsIndex_neg_one (len : Nat) : jsIndex len (-1) = len - 1 := by
  unfold jsIndex
  rw [if_pos (by decide)]
  rw [show (-(-1 : Int)).toNat = 1 from rfl]
  omega

theorem jsSliceFrom_append (a b : List Char) :
    jsSliceFrom (a ++ b) (a.length : Int) = b := by
  have hle : a.length ≤ (a ++ b).length := by simp
  unfold jsSliceFrom jsSlice
  rw [jsIndex_self, jsIndex_cast, Nat.min_eq_left hle, List.take_length]
  exact List.drop_left a b

theorem jsSliceFrom_zero (s : List Char) : jsSliceFrom s 0 = s := by
  unfold jsSliceFrom jsSlice
  rw [jsIndex_zero, jsIndex_self, List.take_length, List.drop_zero]

theorem jsSlice_zero_length (pre rest : List Char) :
    jsSlice (pre ++ rest) 0 (pre.length : Int) = pre := by
  have hle : pre.length ≤ (pre ++ rest).length := by simp
  unfold jsSlice
  rw [jsIndex_zero, jsIndex_cast, Nat.min_eq_left hle, List.drop_zero]
  exact List.take_left pre rest

theorem jsSlice_zero_neg_one (s : List Char) : jsSlice s 0 (-1) = s.dropLast := by
  unfold jsSlice
  rw [jsIndex_zero, jsIndex_neg_one, List.drop_zero, List.dropLast_eq_take]

theorem jsIndexOf_of_not_mem (s : List Char) (t : Char) (h : t ∉ s) :
    jsIndexOf s t = -1 := by
  induction s with
  | nil => rfl
  | cons c rest ih =>
    have hct : (c == t) = false := by
      rw [beq_eq_false_iff_ne]
      intro he
      exact h (he ▸ List.mem_cons_self c rest)
    have hrest : t ∉ rest := fun hm => h (List.mem_cons_of_mem c hm)
    simp [jsIndexOf, hct, ih hrest]

theorem jsIndexOf_append_cons (pre post : List Char) (t : Char) (h : t ∉ pre) :
    jsIndexOf (pre ++ t :: post) t = (pre.length : Int) := by
  induction pre with
  | nil => simp [jsIndexOf]
  | cons c rest ih =>
    have hct : (c == t) = false := by
      rw [beq_eq_false_iff_ne]
      intro he
      exact h (he ▸ List.mem_cons_self c rest)
    have hrest : t ∉ rest := fun hm => h (List.mem_cons_of_mem c hm)
    have hr := ih hrest
    have hnneg : ¬ (jsIndexOf (rest ++ t :: post) t < 0) := by
      rw [hr]; omega
    rw [List.cons_append]
    show (if c == t then 0
      else if jsIndexOf (rest ++ t :: post) t < 0 then -1
      else jsIndexOf (rest ++ t :: post) t + 1) = ((c :: rest).length : Int)
    rw [hct]
    simp only [Bool.false_eq_true, if_false]
    rw [if_neg hnneg, hr, List.length_cons]
    push_cast
    ring

/-- The parse rule on a URL whose remainder contains a `/`: split at the
first `/`, trim both sides. -/
theorem parseAkari_with_slash (pre post : List Char) (hpre : '/' ∉ pre) :
    parseAkari (schemeHead.toList ++ pre ++ '/' :: post) = (jsTrim pre, jsTrim post) := by
  have hlen : (schemeHead.length : Int) = (schemeHead.toList.length : Int) := rfl
  simp only [parseAkari]
  rw [List.append_assoc, hlen, jsSliceFrom_append]
  rw [jsIndexOf_append_cons pre post '/' hpre]
  rw [jsSlice_zero_length pre ('/' :: post)]
  rw [show pre ++ '/' :: post = (pre ++ ['/']) ++ post by simp]
  have hplus : ((pre.length : Int)) + 1 = ((pre ++ ['/']).length : Int) := by
    rw [List.length_append, List.length_singleton]
    push_cast
    ring
  rw [hplus, jsSliceFrom_append]

/-- The parse rule on a URL whose remainder has no `/`: `indexOf` returns
`-1`, so `slice(0, -1)` drops the final character and `slice(0)` keeps the
whole remainder. -/
theorem parseAkari_no_slash (rest : List Char) (h : '/' ∉ rest) :
    parseAkari (schemeHead.toList ++ rest) = (jsTrim rest.dropLast, jsTrim rest) := by
  have hlen : (schemeHead.length : Int) = (schemeHead.toList.length : Int) := rfl
  simp only [parseAkari]
  rw [hlen, jsSliceFrom_append]
  rw [jsIndexOf_of_not_mem rest '/' h]
  rw [jsSlice_zero_neg_one]
  rw [show (-1 + 1 : Int) = 0 by decide, jsSliceFrom_zero]

/-! ## Lemmas about the domain registry -/

theorem regGet_eq_none_of_not_has {K H : Type} [DecidableEq K]
    (r : List (K × H)) (d : K) (h : regHas r d = false) : regGet r d = none := by
  induction r with
  | nil => rfl
  | cons p rest ih =>
    simp only [regHas, List.any_cons, Bool.or_eq_false_iff] at h
    simp only [regGet, List.find?_cons, h.1]
    exact ih h.2

theorem regGet_append_singleton_self {K H : Type} [DecidableEq K]
    (r : List (K × H)) (d : K) (h : H) (hnd : regHas r d = false) :
    regGet (r ++ [(d, h)]) d = some h := by
  induction r with
  | nil => simp [regGet, List.find?]
  | cons p rest ih =>
    simp only [regHas, List.any_cons, Bool.or_eq_false_iff] at hnd
    simp only [List.cons_append, regGet, List.find?_cons, hnd.1]
    exact ih hnd.2

theorem regGet_append_singleton_ne {K H : Type} [DecidableEq K]
    (r : List (K × H)) (d : K) (h : H) (d' : K) (hne : d' ≠ d) :
    regGet (r ++ [(d, h)]) d' = regGet r d' := by
  induction r with
  | nil =>
    have : (decide (d = d')) = false := by
      simp only [decide_eq_false_iff_not]
      exact fun he => hne he.symm
    simp [regGet, List.find?, this]
  | cons p rest ih =>
    by_cases hp : p.1 = d'
    · simp [regGet, List.find?_cons, hp]
    · have hd : (decide (p.1 = d')) = false := by simpa using hp
      simp only [List.cons_append, regGet, List.find?_cons, hd] at ih ⊢
      exact ih

theorem regHas_append_singleton_self {K H : Type} [DecidableEq K]
    (r : List (K × H)) (d : K) (h : H) : regHas (r ++ [(d, h)]) d = true := by
  simp [regHas]

theorem regHas_iff_regGet_isSome {K H : Type} [DecidableEq K]
    (r : List (K × H)) (d : K) : regHas r d = true ↔ (regGet r d).isSome := by
  induction r with
  | nil => simp [regHas, regGet]
  | cons p rest ih =>
    by_cases hp : p.1 = d
    · simp [regHas, regGet, List.find?_cons, hp]
    · have hd : (decide (p.1 = d)) = false := by simpa using hp
      simp only [regHas, List.any_cons, regGet, List.find?_cons, hd] at ih ⊢
      set_option linter.unnecessarySimpa false in
      simpa using ih

theorem regGet_eraseP_self {K H : Type} [DecidableEq K]
    (r : List (K × H)) (d : K) (hnodup : (r.map Prod.fst).Nodup) :
    regGet (r.eraseP (fun p => decide (p.1 = d))) d = none := by
  induction r with
  | nil => rfl
  | cons p rest ih =>
    rw [List.map_cons, List.nodup_cons] at hnodup
    by_cases hp : p.1 = d
    · rw [List.eraseP_cons_of_pos (by simp [hp])]
      apply regGet_eq_none_of_not_has
      rw [← Bool.not_eq_true]
      intro hhas
      have hsome := (regHas_iff_regGet_isSome rest d).mp hhas
      rw [Option.isSome_iff_exists] at hsome
      obtain ⟨v, hv⟩ := hsome
      have hmem := List.mem_of_find?_eq_some (Option.map_eq_some'.mp hv).choose_spec.1
      have hkey : d ∈ rest.map Prod.fst := by
        rcases Option.map_eq_some'.mp hv with ⟨q, hq, hqv⟩
        have := List.find?_some hq
        have hq1 : q.1 = d := by simpa using this
        exact hq1 ▸ List.mem_map_of_mem Prod.fst (List.mem_of_find?_eq_some hq)
      exact hnodup.1 (hp ▸ hkey)
    · rw [List.eraseP_cons_of_neg (by simp [hp])]
      have hd : (decide (p.1 = d)) = false := by simpa using hp
      simp only [regGet, List.find?_cons, hd]
      exact ih hnodup.2

theorem regGet_eraseP_ne {K H : Type} [DecidableEq K]
    (r : List (K × H)) (d d' : K) (hne : d' ≠ d) :
    regGet (r.eraseP (fun p => decide (p.1 = d))) d' = regGet r d' := by
  induction r with
  | nil => rfl
  | cons p rest ih =>
    by_cases hp : p.1 = d
    · rw [List.eraseP_cons_of_pos (by simp [hp])]
      have hd : (decide (p.1 = d')) = false := by
        simp only [decide_eq_false_iff_not]
        rw [hp]
        exact fun he => hne he.symm
      simp [regGet, List.find?_cons, hd]
    · rw [List.eraseP_cons_of_neg (by simp [hp])]
      by_cases hp' : p.1 = d'
      · simp [regGet, List.find?_cons, hp']
      · have hd' : (decide (p.1 = d')) = false := by simpa using hp'
        simp only [regGet, List.find?_cons, hd'] at ih ⊢
        exact ih

theorem eraseP_append_singleton {K H : Type} [DecidableEq K]
    (r : List (K × H)) (d : K) (h : H) (hnd : regHas r d = false) :
    (r ++ [(d, h)]).eraseP (fun p => decide (p.1 = d)) = r := by
  have hall : ∀ b ∈ r, ¬ ((fun p => decide (p.1 = d)) b = true) := by
    intro b hb
    simp only [decide_eq_true_eq]
    intro hbd
    have : regHas r d = true := by
      simp only [regHas, List.any_eq_true]
      exact ⟨b, hb, by simpa using hbd⟩
    rw [this] at hnd
    exact Bool.noConfusion hnd
  rw [List.eraseP_append_right _ hall]
  simp [List.eraseP_cons_of_pos]

/-! ## Local file responder (`_toLocalFileResponse`) -/

/-- A Node.js system error as observed by the `catch` block: an error `code`
(`ENOENT`, `EACCES`, …) and a human-readable `message`. -/
structure JsError where
  code : String
  message : String
deriving DecidableEq

/-- The two fields of `fs.Stats` the responder reads. -/
structure FileStats where
  isDirectory : Bool
  size : Nat
deriving DecidableEq

/-- The filesystem operations `_toLocalFileResponse` performs, as observed
at its call sites: `fs.promises.access(p, F_OK | R_OK)` (throws a `JsError`
on failure) and `fs.promises.stat(p)`. -/
structure Fs where
  access : String → Except JsError Unit
  stat : String → Except JsError FileStats

/-- JavaScript `x || d` for `x : string | null`: `null` and the empty string
are falsy. -/
def jsOrDefault (x : Option String) (d : String) : String :=
  match x with
  | none => d
  | some s => if s.isEmpty then d else s

/-- The `catch` block of `_toLocalFileResponse`: map the error code to a
status, with the error message as a plain-text body. -/
def localFileErrorResponse (e : JsError) : Resp :=
  if e.code = "ENOENT" then
    { status := 404, statusText := "", headers := [("Content-Type", "text/plain")],
      body := Body.text e.message }
  else if e.code = "EACCES" then
    { status := 403, statusText := "", headers := [("Content-Type", "text/plain")],
      body := Body.text e.message }
  else
    { status := 500, statusText := "", headers := [("Content-Type", "text/plain")],
      body := Body.text e.message }

/-- `AkariProtocolMain._toLocalFileResponse`.  The ambient machinery the
method calls into is passed explicitly: the filesystem `fs`, the mime lookup
`this._mime.getType`, the `path.resolve` of Node, and `new Date().toUTCString()`. -/
def toLocalFileResponse (fs : Fs) (mimeGetType : String → Option String)
    (resolve : String → String) (nowUTC : String) (uri : String) : Resp :=
  let filePath := resolve uri
  match fs.access filePath with
  | Except.error e => localFileErrorResponse e
  | Except.ok _ =>
    match fs.stat filePath with
    | Except.error e => localFileErrorResponse e
    | Except.ok stats =>
      if stats.isDirectory then
        { status := 403, statusText := "", headers := [("Content-Type", "text/plain")],
          body := Body.text ("Cannot read directory: " ++ uri) }
      else
        { status := 200, statusText := ""
          headers :=
            [("Access-Control-Allow-Origin", "*"),
             ("Connection", "keep-alive"),
             ("Content-Type", jsOrDefault (mimeGetType filePath) "application/octet-stream"),
             ("Cache-Control", "no-cache"),
             ("Content-Length", toString stats.size),
             ("Date", nowUTC)]
          body := Body.fileStream filePath }

/-! ## Stream adapter (`convertWebStreamToNodeStream`) -/

/-- One result of `reader.read()` on the pull side: a chunk, the `done`
signal, or a rejection (caught by the `catch` in the generator). -/
inductive ReadEvent where
  | chunk (v : List Nat)
  | done
  | errored
deriving DecidableEq

/-- One observable event on the push side: a yielded chunk, or the single
end-of-stream signal `Readable.from` emits when the generator returns. -/
inductive PushEvent where
  | push (v : List Nat)
  | close
deriving DecidableEq

def isCloseEvent : PushEvent → Bool
  | PushEvent.close => true
  | _ => false

/-- The async generator inside `convertWebStreamToNodeStream`, driven over a
given sequence of `reader.read()` results: yield each chunk; `break` on
`done` or on a rejection, after which the node stream closes once.  An empty
remainder means the reader never resolved again (no completion). -/
def bridgeLoop : List ReadEvent → List PushEvent
  | [] => []
  | ReadEvent.chunk v :: rest => PushEvent.push v :: bridgeLoop rest
  | ReadEvent.done :: _ => [PushEvent.close]
  | ReadEvent.errored :: _ => [PushEvent.close]

theorem bridgeLoop_chunks_done (chunks : List (List Nat)) :
    bridgeLoop (chunks.map ReadEvent.chunk ++ [ReadEvent.done])
      = chunks.map PushEvent.push ++ [PushEvent.close] := by
  induction chunks with
  | nil => rfl
  | cons c rest ih => simp [bridgeLoop, ih]

/-- A trivially-constant handler, used to state concrete lookup facts. -/
def dummyHandler : List Char → Req → Resp :=
  fun _ _ => { status := 200, statusText := "", headers := [], body := Body.text "" }

/-! ## Claims -/

/-- C1: for every request URI under the reserved scheme with a `/` after the
scheme prefix, the interceptor strips `akari://`, splits at the first `/`,
trims surrounding (not internal) whitespace from domain and remainder, and
looks the domain up by exact, case-sensitive string equality;
`akari://files/a/b/c.txt` parses to domain `files`, remainder `a/b/c.txt`. -/
theorem c1_parse_split_and_lookup (pre post : List Char) (hpre : '/' ∉ pre) :
    parseAkari (schemeHead.toList ++ pre ++ '/' :: post) = (jsTrim pre, jsTrim post)
    ∧ parseAkari ("akari://files/a/b/c.txt").toList = (("files").toList, ("a/b/c.txt").toList)
    ∧ parseAkari ("akari:// files /a b ").toList = (("files").toList, ("a b").toList)
    ∧ regGet [(("files").toList, dummyHandler)] (("Files").toList) = none
    ∧ regGet [(("files").toList, dummyHandler)] (("files").toList) = some dummyHandler :=
  ⟨parseAkari_with_slash pre post hpre, by decide, by decide, rfl, rfl⟩

theorem c1_parse_split_and_lookup_witness :
    ('/' ∉ (("files").toList : List Char))
    ∧ parseAkari (schemeHead.toList ++ ("files").toList ++ '/' :: ("a/b/c.txt").toList)
        = (jsTrim ("files").toList, jsTrim ("a/b/c.txt").toList) :=
  ⟨by decide, (c1_parse_split_and_lookup ("files").toList ("a/b/c.txt").toList (by decide)).1⟩

/-- C2 counterexample: the claim says `akari://files` parses to domain
`files` and remainder `""`; the code instead computes `indexOf = -1`, so
`slice(0, -1)` yields domain `file` and `slice(0)` yields remainder `files`. -/
theorem c2_no_slash_counterexample :
    parseAkari ("akari://files").toList ≠ (("files").toList, ("").toList) := by decide

/-- C2 (amended): for every request URI under the reserved scheme with no `/`
after the scheme prefix, parsing yields a domain equal to the remaining
string minus its final character (trimmed) and a remainder equal to the whole
remaining string (trimmed); `akari://files` parses to domain `file` and
remainder `files`. -/
theorem c2_no_slash_amended (rest : List Char) (h : '/' ∉ rest) :
    parseAkari (schemeHead.toList ++ rest) = (jsTrim rest.dropLast, jsTrim rest)
    ∧ parseAkari ("akari://files").toList = (("file").toList, ("files").toList) :=
  ⟨parseAkari_no_slash rest h, by decide⟩

theorem c2_no_slash_amended_witness :
    ('/' ∉ (("files").toList : List Char))
    ∧ parseAkari (schemeHead.toList ++ ("files").toList)
        = (jsTrim (("files").toList).dropLast, jsTrim ("files").toList) :=
  ⟨by decide, (c2_no_slash_amended ("files").toList (by decide)).1⟩

/-- C3: for every request whose parsed domain has no registered handler, the
interceptor returns status 404, status text `Not Found`, header
`Content-Type: text/plain`, and body `"No handler for "` ++ the exact
original request URL. -/
theorem c3_no_handler_fallback (reg : List (List Char × (List Char → Req → Resp)))
    (req : Req) (h : regGet reg (parseAkari req.url).1 = none) :
    handleAkariProtocol reg req =
      { status := 404
        statusText := "Not Found"
        headers := [("Content-Type", "text/plain")]
        body := Body.text ("No handler for " ++ String.mk req.url) } := by
  simp only [handleAkariProtocol]
  rw [h]

theorem c3_no_handler_fallback_witness :
    handleAkariProtocol [] { url := ("akari://nope/x").toList, method := "GET" } =
      { status := 404
        statusText := "Not Found"
        headers := [("Content-Type", "text/plain")]
        body := Body.text ("No handler for " ++ String.mk ("akari://nope/x").toList) } :=
  c3_no_handler_fallback [] { url := ("akari://nope/x").toList, method := "GET" } rfl

/-- C4: registering an absent domain succeeds, a subsequent lookup returns
the handler, and no other key is affected; a second registration of the same
domain fails with the duplicate-domain error, leaving the stored handler in
place (the failed call returns no new registry state). -/
theorem c4_register_semantics (H : Type) (r : List (String × H)) (d : String) (h h2 : H)
    (hnd : regHas r d = false) :
    registerDomain r d h = Except.ok (r ++ [(d, h)])
    ∧ regGet (r ++ [(d, h)]) d = some h
    ∧ (∀ d', d' ≠ d → regGet (r ++ [(d, h)]) d' = regGet r d')
    ∧ registerDomain (r ++ [(d, h)]) d h2
        = Except.error ("Domain " ++ d ++ " is already registered") := by
  refine ⟨by simp [registerDomain, hnd],
    regGet_append_singleton_self r d h hnd,
    fun d' hne => regGet_append_singleton_ne r d h d' hne,
    by simp [registerDomain, regHas_append_singleton_self]⟩

theorem c4_register_semantics_witness :
    registerDomain [("a", (1 : Nat))] "b" 2 = Except.ok [("a", 1), ("b", 2)]
    ∧ regGet [("a", (1 : Nat)), ("b", 2)] "b" = some 2
    ∧ regGet [("a", (1 : Nat)), ("b", 2)] "a" = some 1
    ∧ registerDomain [("a", (1 : Nat)), ("b", 2)] "b" 3
        = Except.error "Domain b is already registered" := by
  have h := c4_register_semantics Nat [("a", (1 : Nat))] "b" 2 3 (by decide)
  exact ⟨h.1, h.2.1, (h.2.2.1 "a" (by decide)).trans rfl, h.2.2.2⟩

/-- C5: unregistering an absent domain fails with the unknown-domain error
(the failed call returns no new registry state, so every entry is retained);
unregistering a present domain removes exactly that entry: afterwards the
domain is absent and every other key maps as before. -/
theorem c5_unregister_semantics (H : Type) (r : List (String × H)) (d : String)
    (hnodup : (r.map Prod.fst).Nodup) :
    (regHas r d = false →
      unregisterDomain r d = Except.error ("Domain " ++ d ++ " is not registered"))
    ∧ (regHas r d = true →
      unregisterDomain r d = Except.ok (r.eraseP (fun p => decide (p.1 = d)))
      ∧ regGet (r.eraseP (fun p => decide (p.1 = d))) d = none
      ∧ ∀ d', d' ≠ d → regGet (r.eraseP (fun p => decide (p.1 = d))) d' = regGet r d') := by
  constructor
  · intro h
    simp [unregisterDomain, h]
  · intro h
    exact ⟨by simp [unregisterDomain, h],
      regGet_eraseP_self r d hnodup,
      fun d' hne => regGet_eraseP_ne r d d' hne⟩

theorem c5_unregister_semantics_witness :
    unregisterDomain [("a", (1 : Nat)), ("b", 2)] "c"
        = Except.error "Domain c is not registered"
    ∧ unregisterDomain [("a", (1 : Nat)), ("b", 2)] "b" = Except.ok [("a", 1)]
    ∧ regGet [("a", (1 : Nat))] "b" = none
    ∧ regGet [("a", (1 : Nat))] "a" = some 1 := by
  have habs := (c5_unregister_semantics Nat [("a", 1), ("b", 2)] "c" (by decide)).1 (by decide)
  have hpres := (c5_unregister_semantics Nat [("a", 1), ("b", 2)] "b" (by decide)).2 (by decide)
  exact ⟨habs, hpres.1, hpres.2.1, (hpres.2.2 "a" (by decide)).trans rfl⟩

/-- C6: `_toLocalFileResponse` returns 403 with a plain-text body when the
resolved path is an accessible directory (no listing is ever produced); when
access or stat fails it returns a response whose status is 404 for `ENOENT`,
403 for `EACCES` and 500 otherwise, whose body is the failure message, with
content type `text/plain`. -/
theorem c6_local_file_error_mapping (fs : Fs) (mimeGetType : String → Option String)
    (resolve : String → String) (nowUTC : String) (uri : String) :
    (∀ stats, fs.access (resolve uri) = Except.ok () →
      fs.stat (resolve uri) = Except.ok stats → stats.isDirectory = true →
      toLocalFileResponse fs mimeGetType resolve nowUTC uri =
        { status := 403, statusText := "", headers := [("Content-Type", "text/plain")],
          body := Body.text ("Cannot read directory: " ++ uri) })
    ∧ (∀ e, fs.access (resolve uri) = Except.error e →
        toLocalFileResponse fs mimeGetType resolve nowUTC uri = localFileErrorResponse e)
    ∧ (∀ e, fs.access (resolve uri) = Except.ok () →
        fs.stat (resolve uri) = Except.error e →
        toLocalFileResponse fs mimeGetType resolve nowUTC uri = localFileErrorResponse e)
    ∧ (∀ e, (localFileErrorResponse e).status
          = (if e.code = "ENOENT" then 404 else if e.code = "EACCES" then 403 else 500)
        ∧ (localFileErrorResponse e).body = Body.text e.message
        ∧ (localFileErrorResponse e).headers = [("Content-Type", "text/plain")]) := by
  refine ⟨?_, ?_, ?_, ?_⟩
  · intro stats hacc hstat hdir
    simp only [toLocalFileResponse]
    rw [hacc, hstat]
    simp [hdir]
  · intro e hacc
    simp only [toLocalFileResponse]
    rw [hacc]
  · intro e hacc hstat
    simp only [toLocalFileResponse]
    rw [hacc, hstat]
  · intro e
    unfold localFileErrorResponse
    by_cases h1 : e.code = "ENOENT" <;> by_cases h2 : e.code = "EACCES" <;>
      simp [h1, h2]

theorem c6_local_file_error_mapping_witness :
    toLocalFileResponse
        ⟨fun _ => Except.ok (), fun _ => Except.ok ⟨true, 0⟩⟩
        (fun _ => none) id "now" "somedir" =
      { status := 403, statusText := "", headers := [("Content-Type", "text/plain")],
        body := Body.text ("Cannot read directory: " ++ "somedir") }
    ∧ toLocalFileResponse
        ⟨fun _ => Except.error ⟨"ENOENT", "no such file"⟩,
         fun _ => Except.ok ⟨false, 0⟩⟩
        (fun _ => none) id "now" "missing"
      = localFileErrorResponse ⟨"ENOENT", "no such file"⟩
    ∧ (localFileErrorResponse ⟨"ENOENT", "no such file"⟩).status = 404
    ∧ (localFileErrorResponse ⟨"EACCES", "denied"⟩).status = 403
    ∧ (localFileErrorResponse ⟨"EBUSY", "busy"⟩).status = 500 := by
  have hd := c6_local_file_error_mapping
    ⟨fun _ => Except.ok (), fun _ => Except.ok ⟨true, 0⟩⟩ (fun _ => none) id "now" "somedir"
  have he := c6_local_file_error_mapping
    ⟨fun _ => Except.error ⟨"ENOENT", "no such file"⟩, fun _ => Except.ok ⟨false, 0⟩⟩
    (fun _ => none) id "now" "missing"
  exact ⟨hd.1 ⟨true, 0⟩ rfl rfl rfl,
    he.2.1 ⟨"ENOENT", "no such file"⟩ rfl,
    ((he.2.2.2 ⟨"ENOENT", "no such file"⟩).1).trans (by decide),
    ((he.2.2.2 ⟨"EACCES", "denied"⟩).1).trans (by decide),
    ((he.2.2.2 ⟨"EBUSY", "busy"⟩).1).trans (by decide)⟩

/-- C7: for a path that resolves to an existing, readable, non-directory
file, `_toLocalFileResponse` returns status 200 (the `Response` constructor
default) with a body streaming the resolved file, `Content-Length` equal to
the stat size, a `Content-Type` derived from the mime lookup defaulting to
`application/octet-stream`, `Access-Control-Allow-Origin: *`,
`Connection: keep-alive`, `Cache-Control: no-cache` and a `Date` header. -/
theorem c7_local_file_success (fs : Fs) (mimeGetType : String → Option String)
    (resolve : String → String) (nowUTC : String) (uri : String) (stats : FileStats)
    (hacc : fs.access (resolve uri) = Except.ok ())
    (hstat : fs.stat (resolve uri) = Except.ok stats)
    (hdir : stats.isDirectory = false) :
    toLocalFileResponse fs mimeGetType resolve nowUTC uri =
      { status := 200
        statusText := ""
        headers :=
          [("Access-Control-Allow-Origin", "*"),
           ("Connection", "keep-alive"),
           ("Content-Type", jsOrDefault (mimeGetType (resolve uri)) "application/octet-stream"),
           ("Cache-Control", "no-cache"),
           ("Content-Length", toString stats.size),
           ("Date", nowUTC)]
        body := Body.fileStream (resolve uri) }
    ∧ (mimeGetType (resolve uri) = none →
        jsOrDefault (mimeGetType (resolve uri)) "application/octet-stream"
          = "application/octet-stream") := by
  constructor
  · simp only [toLocalFileResponse]
    rw [hacc, hstat]
    simp [hdir]
  · intro hm
    rw [hm]
    rfl

theorem c7_local_file_success_witness :
    toLocalFileResponse
        ⟨fun _ => Except.ok (), fun _ => Except.ok ⟨false, 42⟩⟩
        (fun _ => some "text/plain") id "now" "f.txt" =
      { status := 200
        statusText := ""
        headers :=
          [("Access-Control-Allow-Origin", "*"),
           ("Connection", "keep-alive"),
           ("Content-Type", "text/plain"),
           ("Cache-Control", "no-cache"),
           ("Content-Length", "42"),
           ("Date", "now")]
        body := Body.fileStream "f.txt" } := by
  have h := (c7_local_file_success
    ⟨fun _ => Except.ok (), fun _ => Except.ok ⟨false, 42⟩⟩
    (fun _ => some "text/plain") id "now" "f.txt" ⟨false, 42⟩ rfl rfl rfl).1
  exact h.trans (by decide)

/-- C8: bridging any finite chunk sequence (terminated by the `done`
signal) through `convertWebStreamToNodeStream` pushes exactly the same
chunks in the same order and signals completion exactly once. -/
theorem c8_stream_bridge_roundtrip (chunks : List (List Nat)) :
    bridgeLoop (chunks.map ReadEvent.chunk ++ [ReadEvent.done])
      = chunks.map PushEvent.push ++ [PushEvent.close]
    ∧ (bridgeLoop (chunks.map ReadEvent.chunk ++ [ReadEvent.done])).countP isCloseEvent = 1 := by
  refine ⟨bridgeLoop_chunks_done chunks, ?_⟩
  rw [bridgeLoop_chunks_done chunks, List.countP_append]
  have h0 : (chunks.map PushEvent.push).countP isCloseEvent = 0 := by
    induction chunks with
    | nil => rfl
    | cons c rest ih => simp [List.countP_cons, isCloseEvent, ih]
  rw [h0]
  rfl

/-- C9 counterexample: `registerDomain` performs no validation of the domain
name, so registering the empty string succeeds and leaves an empty-string
key in the registry, contrary to the claimed non-empty-key invariant. -/
theorem c9_empty_domain_counterexample :
    registerDomain ([] : List (String × Nat)) "" 0 = Except.ok [("", 0)]
    ∧ regHas ([("", 0)] : List (String × Nat)) "" = true :=
  ⟨rfl, rfl⟩

/-- C9 (amended): registry keys are arbitrary strings; the empty string is
accepted like any other domain: registering it on a registry without it
succeeds and a subsequent lookup of `""` returns the handler. -/
theorem c9_empty_domain_amended (H : Type) (r : List (String × H)) (h : H)
    (hnd : regHas r "" = false) :
    registerDomain r "" h = Except.ok (r ++ [("", h)])
    ∧ regGet (r ++ [("", h)]) "" = some h :=
  ⟨by simp [registerDomain, hnd], regGet_append_singleton_self r "" h hnd⟩

theorem c9_empty_domain_amended_witness :
    registerDomain [("a", (1 : Nat))] "" 2 = Except.ok [("a", 1), ("", 2)]
    ∧ regGet [("a", (1 : Nat)), ("", 2)] "" = some 2 := by
  have h := c9_empty_domain_amended Nat [("a", (1 : Nat))] 2 (by decide)
  exact ⟨h.1, h.2⟩

/-- C10: for any registry and absent domain `d`, register then unregister
both succeed and the registry is restored exactly (so lookup agrees on every
domain), and a subsequent registration of `d` succeeds again. -/
theorem c10_register_unregister_roundtrip (H : Type) (r : List (String × H))
    (d : String) (h h2 : H) (hnd : regHas r d = false) :
    registerDomain r d h = Except.ok (r ++ [(d, h)])
    ∧ unregisterDomain (r ++ [(d, h)]) d = Except.ok r
    ∧ registerDomain r d h2 = Except.ok (r ++ [(d, h2)]) := by
  refine ⟨by simp [registerDomain, hnd], ?_, by simp [registerDomain, hnd]⟩
  have hhas := regHas_append_singleton_self r d h
  simp [unregisterDomain, hhas, eraseP_append_singleton r d h hnd]

theorem c10_register_unregister_roundtrip_witness :
    registerDomain [("a", (1 : Nat))] "b" 2 = Except.ok [("a", 1), ("b", 2)]
    ∧ unregisterDomain [("a", (1 : Nat)), ("b", 2)] "b" = Except.ok [("a", 1)]
    ∧ registerDomain [("a", (1 : Nat))] "b" 3 = Except.ok [("a", 1), ("b", 3)] := by
  have h := c10_register_unregister_roundtrip Nat [("a", (1 : Nat))] "b" 2 3 (by decide)
  exact ⟨h.1, h.2.1, h.2.2⟩

end AkariProtocol
